import Mathlib

/-
  Verification of the portable-text editing core (Orchestrator and Editable
  surface) of this repository, as a shallow embedding in Lean 4.

  Sources embedded:
  - `PortableTextInput` (the Object-Editing Orchestrator): the focus-path
    effect that opens annotation / block-object / inline-object editing
    surfaces, the selection-sync effect that emits external focus paths,
    the close handler of the object editor, and the change-proxying of
    nested form-builder patch events.
  - `PortableTextEditable` (the Editable Surface): the placeholder block,
    `getValueOrInitialValue`, the "Restore value from props" positional
    reconciliation of the internal engine's children, the composing (IME)
    flag set by `handleOnBeforeInput`, and the paste handler's event order.

  Deep equality (lodash `isEqual`) on JSON-like values is modelled by
  decidable structural equality on the embedded types.
-/

namespace Sanity

/-- Path segments of the external addressing scheme: either a property name
or a keyed segment `\x7b_key: k\x7d` (`isKeySegment` in `@sanity/types`). -/
inductive Segment where
  | prop (name : String)
  | key (k : String)
  deriving DecidableEq, Repr

/-- A child of a block as read by the Orchestrator and the Editable surface:
`_key`, `_type`, optional `text`, and `marks`, which is `none` when the
child's `marks` is not an array (the source checks `Array.isArray(child.marks)`). -/
structure Child where
  _key : String
  _type : String
  text : Option String
  marks : Option (List String)
  deriving DecidableEq, Repr

/-- A mark definition (`markDef`) attached to a block. -/
structure MarkDef where
  _key : String
  _type : String
  deriving DecidableEq, Repr

/-- A block of the Document: `_key`, `_type`, optional `style`, `markDefs`
and `children`. An object block simply carries a `_type` other than the
schema's text-block type. -/
structure Block where
  _key : String
  _type : String
  style : Option String
  markDefs : List MarkDef
  children : List Child
  deriving DecidableEq, Repr

/-- The `value` prop as received by `PortableTextEditable`
(`value: unknown` at `getValueOrInitialValue`): `undefined`, a defined
non-array value, or an array of blocks. -/
inductive PropValue where
  | undef
  | other
  | arr (blocks : List Block)
  deriving DecidableEq, Repr

/-- JavaScript truthiness of the `value` prop as used by `if (value)` in the
"Restore value from props" effect: `undefined` is falsy; defined values and
arrays (including the empty array) are truthy. -/
def isTruthy : PropValue → Bool
  | PropValue.undef => false
  | PropValue.other => true
  | PropValue.arr _ => true

/-- The source's `getValueOrInitialValue(value, initialValue)`: returns
`value` when it is a non-empty array, otherwise `initialValue`. -/
def getValueOrInitialValue (value : PropValue) (initialValue : List Block) : List Block :=
  match value with
  | PropValue.arr xs => if xs.length > 0 then xs else initialValue
  | _ => initialValue

/-- The source's `placeHolderBlock`: a single text block whose only child is
an empty span with no marks. Parametrised over the schema's block type name,
the two generated keys and `portableTextFeatures.styles[0].value`. -/
def placeHolderBlock (blockTypeName blockKey spanKey style0 : String) : Block :=
  Block.mk blockKey blockTypeName (some style0) []
    [Child.mk spanKey "span" (some "") (some [])]

/-- JavaScript `Array.prototype.splice(start, deleteCount)` restricted to
deletion, as used to truncate `originalChildren`. -/
def listSplice {α : Type} (l : List α) (start count : Nat) : List α :=
  l.take start ++ l.drop (start + count)

/-- One iteration of the `slateValueFromProps.forEach((n, i) => ...)` loop in
the "Restore value from props" effect: replace in place on deep inequality,
append when there is no existing node at `i`. -/
def reconcileStep {α : Type} [DecidableEq α] (acc : List α) (i : Nat) (n : α) : List α :=
  match acc[i]? with
  | some existing => if n = existing then acc else acc.set i n
  | none => acc ++ [n]

/-- The `forEach` loop itself, walking the mapped new nodes with their index. -/
def reconcileGo {α : Type} [DecidableEq α] (acc : List α) (i : Nat) : List α → List α
  | [] => acc
  | n :: rest => reconcileGo (reconcileStep acc i n) (i + 1) rest

/-- Entry of the loop at index 0 over the old children. -/
def reconcileLoop {α : Type} [DecidableEq α] (old new : List α) : List α :=
  reconcileGo old 0 new

/-- The full incremental reconciliation of the "Restore value from props"
effect when `value` is truthy: the positional loop followed by the
truncating `splice` when the merged list is longer than the mapped list
(the splice count is computed from the untouched `slateEditor.children`,
that is from the old length). -/
def reconcile {α : Type} [DecidableEq α] (old new : List α) : List α :=
  if (reconcileLoop old new).length > new.length then
    listSplice (reconcileLoop old new) new.length (old.length - new.length)
  else reconcileLoop old new

/-- The "Restore value from props" effect of `PortableTextEditable`, with the
external `toSlateValue` abstracted as `toSlate`: do nothing while composing;
otherwise reconcile positionally when `value` is truthy, and replace the
children wholesale with the mapped default value when it is not. -/
def restoreValueFromProps {α : Type} [DecidableEq α] (toSlate : List Block → List α)
    (placeHolder : Block) (isComposing : Bool) (value : PropValue)
    (children : List α) : List α :=
  if isComposing then children
  else
    let slateValueFromProps := toSlate (getValueOrInitialValue value [placeHolder])
    if isTruthy value then reconcile children slateValueFromProps
    else slateValueFromProps

/-- Composing (IME) state of the Editable surface: the flag and the deadline
of the pending debounced unset. -/
structure ComposingState where
  isComposing : Bool
  unsetDeadline : Option Nat
  deriving DecidableEq, Repr

/-- The source's `handleOnBeforeInput`: sets the composing flag and
(re)schedules the 1000 ms debounced unset. -/
def handleOnBeforeInput (now : Nat) : ComposingState :=
  ComposingState.mk true (some (now + 1000))

/- List helper lemmas for the reconciliation proof. -/

theorem getAppendLen {α : Type} (done rem : List α) :
    (done ++ rem)[done.length]? = rem[0]? := by
  induction done with
  | nil => rfl
  | cons a d ih => simpa using ih

theorem setAppendLen {α : Type} (done rem : List α) (x y : α) :
    (done ++ x :: rem).set done.length y = done ++ y :: rem := by
  induction done with
  | nil => rfl
  | cons a d ih => simp

theorem reconcileGo_spec {α : Type} [DecidableEq α] (rest : List α) :
    ∀ (done rem : List α),
      reconcileGo (done ++ rem) done.length rest
        = done ++ (rest ++ List.drop rest.length rem) := by
  induction rest with
  | nil =>
    intro done rem
    simp [reconcileGo]
  | cons n rest' ih =>
    intro done rem
    cases rem with
    | nil =>
      have hg : (done ++ ([] : List α))[done.length]? = (none : Option α) := by
        simp
      have hstep : reconcileStep (done ++ ([] : List α)) done.length n
          = (done ++ [n]) ++ ([] : List α) := by
        simp [reconcileStep, hg]
      have h2 := ih (done ++ [n]) ([] : List α)
      rw [reconcileGo, hstep]
      rw [show done.length + 1 = (done ++ [n]).length by simp]
      rw [h2]
      simp
    | cons e rem' =>
      have hg : (done ++ e :: rem')[done.length]? = some e := by
        rw [getAppendLen]
        exact List.getElem?_cons_zero
      have hstep : reconcileStep (done ++ e :: rem') done.length n = done ++ n :: rem' := by
        by_cases hne : n = e
        · subst hne; simp [reconcileStep, hg]
        · simp [reconcileStep, hg, hne, setAppendLen]
      have h2 := ih (done ++ [n]) rem'
      rw [reconcileGo, hstep]
      rw [show done ++ n :: rem' = (done ++ [n]) ++ rem' by simp]
      rw [show done.length + 1 = (done ++ [n]).length by simp]
      rw [h2]
      simp

theorem reconcileLoop_eq {α : Type} [DecidableEq α] (old new : List α) :
    reconcileLoop old new = new ++ List.drop new.length old := by
  have h := reconcileGo_spec new ([] : List α) old
  simpa [reconcileLoop] using h

theorem reconcile_eq {α : Type} [DecidableEq α] (old new : List α) :
    reconcile old new = new := by
  by_cases h : old.length ≤ new.length
  · have hd : List.drop new.length old = [] := by
      apply List.drop_eq_nil_of_le h
    simp [reconcile, reconcileLoop_eq, hd]
  · have hlt : new.length < old.length := Nat.lt_of_not_le h
    have hdlen : (List.drop new.length old).length = old.length - new.length := by
      simp
    have hmlen : (new ++ List.drop new.length old).length = old.length := by
      simp [Nat.add_sub_cancel' (Nat.le_of_lt hlt)]
    have hcond : (reconcileLoop old new).length > new.length := by
      rw [reconcileLoop_eq, hmlen]; exact hlt
    rw [reconcile, if_pos hcond, reconcileLoop_eq, listSplice]
    have htake : (new ++ List.drop new.length old).take new.length = new := by
      simp
    have hdrop : (new ++ List.drop new.length old).drop
        (new.length + (old.length - new.length)) = [] := by
      apply List.drop_eq_nil_of_le
      rw [hmlen]
      omega
    rw [htake, hdrop, List.append_nil]

/- The paste handler of the Editable surface, modelled as the ordered lists
of observable events it produces. -/

/-- Observable events of `handlePaste`: the `loading` change signal, DOM
`preventDefault`, engine insertion of a returned fragment, default insertion
of clipboard data, console error logging, and the unexpected-result warning. -/
inductive PasteEvent where
  | loading (isLoading : Bool)
  | preventDefault
  | insertFragment
  | insertData
  | logError
  | warnUnexpected
  deriving DecidableEq, Repr

/-- The settled outcome of the external `onPaste` handler: falsy, an `Error`
(thrown or returned), a result carrying `insert`, or some other truthy value. -/
inductive PasteResult where
  | empty
  | errorResult
  | insertResult
  | unexpected
  deriving DecidableEq, Repr

/-- Events of the `.then`/`.catch` chain attached to the resolved `onPaste`
result, in execution order. These callbacks run only after the handler's
result settles. The then-callback first emits `loading isLoading:true`,
returns silently on a falsy result, rethrows an `Error` into the catch
handler (which emits `loading isLoading:false` and logs), inserts the
returned fragment between the two loading signals, and warns on any other
truthy result. -/
def pasteSettledEvents : PasteResult → List PasteEvent
  | PasteResult.empty => [PasteEvent.loading true]
  | PasteResult.errorResult =>
      [PasteEvent.loading true, PasteEvent.loading false, PasteEvent.logError]
  | PasteResult.insertResult =>
      [PasteEvent.loading true, PasteEvent.preventDefault, PasteEvent.insertFragment,
        PasteEvent.loading false]
  | PasteResult.unexpected => [PasteEvent.loading true, PasteEvent.warnUnexpected]

/-- The source's `handlePaste`, split into the events emitted synchronously
(before the `onPaste` result settles) and the events emitted by the promise
callbacks (after it settles). Without a selection nothing happens. With a
selection, the synchronous tail of the function always calls
`event.preventDefault()` and `slateEditor.insertData(event.clipboardData)`;
when an `onPaste` handler is supplied the settled events follow later. -/
def handlePaste (hasSelection hasOnPaste : Bool) (r : PasteResult) :
    List PasteEvent × List PasteEvent :=
  if hasSelection then
    ([PasteEvent.preventDefault, PasteEvent.insertData],
      if hasOnPaste then pasteSettledEvents r else [])
  else ([], [])

/- The Object-Editing Orchestrator (`PortableTextInput`). -/

/-- A selection point: a path plus a character offset. -/
structure SelPoint where
  path : List Segment
  offset : Nat
  deriving DecidableEq, Repr

/-- An engine selection: an anchor and a focus point. -/
structure EditorSel where
  anchor : SelPoint
  focus : SelPoint
  deriving DecidableEq, Repr

/-- The collapsed selection at a path with offset 0, as built by the source
for `PortableTextEditor.select`. -/
def collapsedAt (p : List Segment) : EditorSel :=
  EditorSel.mk (SelPoint.mk p 0) (SelPoint.mk p 0)

/-- Kind of an opened object editor. `annot` stands for the source's
`kind: \x27annotation\x27`. -/
inductive ObjKind where
  | annot
  | blockObject
  | inlineObject
  deriving DecidableEq, Repr

/-- The Orchestrator's transient `objectEditData` state. -/
structure ObjectEditData where
  editorPath : List Segment
  formBuilderPath : List Segment
  kind : ObjKind
  deriving DecidableEq, Repr

/-- The observable outcome of the focus-path effect: whether
`setIsActive(true)` was called, the engine selection issued, the
`objectEditData` set synchronously (annotation branch), and the
`objectEditData` scheduled via `setTimeout` (block / inline branch). -/
structure FocusEffect where
  setActive : Bool
  selectCmd : Option EditorSel
  immediateEdit : Option ObjectEditData
  deferredEdit : Option ObjectEditData
  deriving DecidableEq, Repr

/-- The effect with no observable actions. -/
def noFocusEffect : FocusEffect := FocusEffect.mk false none none none

/-- Predicate used by `block.children.find(...)` in the annotation branch:
the child's `marks` is an array and includes the mark definition key. -/
def spanHasMark (mdk : String) (c : Child) : Bool :=
  match c.marks with
  | some ms => ms.contains mdk
  | none => false

/-- Predicate used by `(PortableTextEditor.getValue(editor) || []).find(...)`:
the block whose `_key` matches the focus path's first keyed segment. -/
def blockHasKey (bk : String) (b : Block) : Bool := b._key == bk

/-- JavaScript `focusPath[1] === \x27children\x27` (false when out of range or a
keyed segment). -/
def isChildPath (focusPath : List Segment) : Bool :=
  decide (focusPath[1]? = some (Segment.prop "children"))

/-- JavaScript `focusPath[1] === \x27markDefs\x27`. -/
def isMarkdefPath (focusPath : List Segment) : Bool :=
  decide (focusPath[1]? = some (Segment.prop "markDefs"))

/-- The annotation branch of the focus-path effect: look up the block by the
first segment's key in the editor's current value, require a keyed third
segment, find the first span whose `marks` includes that key, then select
the span's path, activate, and set `objectEditData` synchronously with
`kind` annotation, `editorPath` the span path and `formBuilderPath` the
first three segments of the focus path. -/
def annotationBranch (editorValue : List Block) (focusPath : List Segment)
    (bk : String) : FocusEffect :=
  match List.find? (blockHasKey bk) editorValue, focusPath[2]? with
  | some block, some (Segment.key mdk) =>
    match List.find? (spanHasMark mdk) block.children with
    | some span =>
      FocusEffect.mk true
        (some (collapsedAt [Segment.key bk, Segment.prop "children", Segment.key span._key]))
        (some (ObjectEditData.mk
          [Segment.key bk, Segment.prop "children", Segment.key span._key]
          (focusPath.take 3) ObjKind.annot))
        none
    | none => noFocusEffect
  | _, _ => noFocusEffect

/-- The path computed by the block / inline branch: `focusPath.slice(0, 1)`,
extended by `focusPath.slice(1, 3)` when the path targets a child. -/
def blockBranchPath (focusPath : List Segment) : List Segment :=
  if isChildPath focusPath then focusPath.take 1 ++ (focusPath.drop 1).take 2
  else focusPath.take 1

/-- The kind computed by the block / inline branch. -/
def blockBranchKind (focusPath : List Segment) : ObjKind :=
  if isChildPath focusPath then ObjKind.inlineObject else ObjKind.blockObject

/-- The block / inline branch of the focus-path effect: fires only when the
path targets a child and has length greater than 3, or does not target a
child and has length greater than 1. It selects the computed minimal path
immediately and schedules `setObjectEditData` for the next tick. -/
def blockBranch (focusPath : List Segment) : FocusEffect :=
  if (isChildPath focusPath && decide (focusPath.length > 3))
      || (!isChildPath focusPath && decide (focusPath.length > 1)) then
    FocusEffect.mk true (some (collapsedAt (blockBranchPath focusPath))) none
      (some (ObjectEditData.mk (blockBranchPath focusPath) (blockBranchPath focusPath)
        (blockBranchKind focusPath)))
  else noFocusEffect

/-- The focus-path effect of `PortableTextInput` (the `useEffect` on
`focusPath`): does nothing while an object edit session is open; enters the
annotation branch when the second segment is the literal `markDefs` and the
first segment is keyed (and returns from it even when the lookups fail);
otherwise falls through to the block / inline branch. -/
def focusPathEffect (objectEditData : Option ObjectEditData)
    (editorValue : List Block) (focusPath : List Segment) : FocusEffect :=
  match objectEditData with
  | some _ => noFocusEffect
  | none =>
    if isMarkdefPath focusPath then
      match focusPath[0]? with
      | some (Segment.key bk) => annotationBranch editorValue focusPath bk
      | _ => blockBranch focusPath
    else blockBranch focusPath

/-- The selection-sync effect of `PortableTextInput` (the `useEffect` on the
engine selection): returns the externally emitted focus path, or `none` when
nothing is emitted. The source emits `onFocus(selection.focus.path)` only
when a selection exists, no object edit session is open, the focus path does
not address a `markDefs` entry, the selection is collapsed, and the focus
path differs from the selection's focus path. -/
def selectionSyncEmit (selection : Option EditorSel)
    (objectEditData : Option ObjectEditData) (focusPath : List Segment) :
    Option (List Segment) :=
  match selection with
  | none => none
  | some sel =>
    if objectEditData = none ∧ ¬(focusPath[1]? = some (Segment.prop "markDefs")) then
      if (sel.focus.path = sel.anchor.path ∧ sel.focus.offset = sel.anchor.offset)
          ∧ ¬(focusPath = sel.focus.path) then
        some sel.focus.path
      else none
    else none

/-- Commands issued by the object editor's `handleClose`, in source order. -/
inductive CloseCmd where
  | setEdit (v : Option ObjectEditData)
  | emitFocus (p : List Segment)
  | engineSelect (s : EditorSel)
  | setInitialSel (s : EditorSel)
  | engineFocus
  deriving DecidableEq, Repr

/-- The source's `handleClose` inside `renderEditObject`: clear
`objectEditData`, emit `onFocus(editorPath)`, select the collapsed selection
at `editorPath` in the engine, record it as the initial selection, and focus
the engine. -/
def handleClose (oed : ObjectEditData) : List CloseCmd :=
  [CloseCmd.setEdit none,
    CloseCmd.emitFocus oed.editorPath,
    CloseCmd.engineSelect (collapsedAt oed.editorPath),
    CloseCmd.setInitialSel (collapsedAt oed.editorPath),
    CloseCmd.engineFocus]

/-- Orchestrator state affected by `handleClose`, with a log of every
external focus event emitted so far. -/
structure OrchState where
  objectEditData : Option ObjectEditData
  initialSelection : Option EditorSel
  engineSelection : Option EditorSel
  focusLog : List (List Segment)
  deriving DecidableEq, Repr

/-- Interpretation of a single close command on the Orchestrator state. -/
def runCmd (st : OrchState) : CloseCmd → OrchState
  | CloseCmd.setEdit v =>
      OrchState.mk v st.initialSelection st.engineSelection st.focusLog
  | CloseCmd.emitFocus p =>
      OrchState.mk st.objectEditData st.initialSelection st.engineSelection
        (st.focusLog ++ [p])
  | CloseCmd.engineSelect s =>
      OrchState.mk st.objectEditData st.initialSelection (some s) st.focusLog
  | CloseCmd.setInitialSel s =>
      OrchState.mk st.objectEditData (some s) st.engineSelection st.focusLog
  | CloseCmd.engineFocus => st

/-- Running the whole close action from a given state. -/
def runClose (st : OrchState) (oed : ObjectEditData) : OrchState :=
  List.foldl runCmd st (handleClose oed)

/- Change proxying of nested form-builder patch events. -/

/-- A form-builder patch with an opaque payload type. -/
structure FormPatch (V : Type) where
  path : List Segment
  ptype : String
  value : V

/-- A form-builder patch event: a list of patches. -/
structure PatchEvent (V : Type) where
  patches : List (FormPatch V)

/-- Modelled from the spec: `PatchEvent.prefixAll` is imported from
`../../PatchEvent`, which is not under src. Per the spec's change-proxying
contract the event "is prefixed with every segment of the object's path, in
reverse order", mapping a nested-object-local patch into a Document-absolute
patch: prefixing one segment prepends it to every patch's path. -/
def PatchEvent.prefixAll {V : Type} (ev : PatchEvent V) (seg : Segment) : PatchEvent V :=
  PatchEvent.mk (ev.patches.map (fun p => FormPatch.mk (seg :: p.path) p.ptype p.value))

/-- The source's `handleFormBuilderEditObjectChange`: fold the reversed
object path over the event, prefixing one segment at a time. -/
def handleFormBuilderEditObjectChange {V : Type} (patchEvent : PatchEvent V)
    (path : List Segment) : PatchEvent V :=
  List.foldl (fun acc seg => PatchEvent.prefixAll acc seg) patchEvent path.reverse

/- Claim theorems. -/

/-- Claim C3: when updating the internal engine's children from a new
Document snapshot (value truthy, not composing), the update is positional:
the result has exactly the length of the mapped new list and agrees with it
at every index — unequal in-range positions are replaced in place, mapped
nodes beyond the old length are appended, and a shorter mapped list
truncates the old children. Stated for the effect `restoreValueFromProps`
with the mapped list `toSlate (getValueOrInitialValue ...)`. -/
theorem valueFromProps_positional {α : Type} [DecidableEq α]
    (toSlate : List Block → List α) (ph : Block) (bs : List Block) (old : List α) :
    (restoreValueFromProps toSlate ph false (PropValue.arr bs) old).length
        = (toSlate (getValueOrInitialValue (PropValue.arr bs) [ph])).length
      ∧ ∀ i : Nat,
        (restoreValueFromProps toSlate ph false (PropValue.arr bs) old)[i]?
          = (toSlate (getValueOrInitialValue (PropValue.arr bs) [ph]))[i]? := by
  have h : restoreValueFromProps toSlate ph false (PropValue.arr bs) old
      = toSlate (getValueOrInitialValue (PropValue.arr bs) [ph]) := by
    simp [restoreValueFromProps, isTruthy, reconcile_eq]
  rw [h]
  exact ⟨rfl, fun i => rfl⟩

/-- Claim C4: while the composing flag is true (it is set by
`handleOnBeforeInput` on a before-input event), processing an external
Document prop change leaves the internal engine's node children completely
unchanged. -/
theorem composing_blocks_restore {α : Type} [DecidableEq α]
    (toSlate : List Block → List α) (ph : Block) (value : PropValue)
    (old : List α) (now : Nat) :
    (handleOnBeforeInput now).isComposing = true
      ∧ restoreValueFromProps toSlate ph (handleOnBeforeInput now).isComposing value old
        = old :=
  ⟨rfl, rfl⟩

/-- Claim C5: applying the value-from-props reconciliation twice in sequence
with the same Document snapshot leaves the internal engine's children
identical to the result of the first application. -/
theorem restore_idempotent {α : Type} [DecidableEq α]
    (toSlate : List Block → List α) (ph : Block) (value : PropValue) (old : List α) :
    restoreValueFromProps toSlate ph false value
        (restoreValueFromProps toSlate ph false value old)
      = restoreValueFromProps toSlate ph false value old := by
  cases value <;> simp [restoreValueFromProps, isTruthy, reconcile_eq]

/-- Claim C9: when the Document value is undefined, not an array, or an
empty array, the value handed to the engine mapping is the single
placeholder text block, whose only child is one empty text span (empty
string, empty marks). -/
theorem placeholder_for_empty (bt bk sk st0 : String) :
    getValueOrInitialValue PropValue.undef [placeHolderBlock bt bk sk st0]
        = [placeHolderBlock bt bk sk st0]
      ∧ getValueOrInitialValue PropValue.other [placeHolderBlock bt bk sk st0]
        = [placeHolderBlock bt bk sk st0]
      ∧ getValueOrInitialValue (PropValue.arr []) [placeHolderBlock bt bk sk st0]
        = [placeHolderBlock bt bk sk st0]
      ∧ (placeHolderBlock bt bk sk st0).children
        = [Child.mk sk "span" (some "") (some [])] :=
  ⟨rfl, rfl, rfl, rfl⟩

/-- Claim C8 (code bug evidence): with a selection and an external paste
handler, the events emitted before the handler's result settles are exactly
`preventDefault` and the default `insertData` — no `loading isLoading:true`
signal precedes settlement, for any outcome — and when the handler settles
with no actionable (falsy) result the only post-settlement event is
`loading isLoading:true`, so `loading isLoading:false` is never emitted.
This contradicts the claimed loading bracketing. -/
theorem handlePaste_loading_after_settle :
    (∀ r : PasteResult, (handlePaste true true r).1
        = [PasteEvent.preventDefault, PasteEvent.insertData])
      ∧ (handlePaste true true PasteResult.empty).2 = [PasteEvent.loading true] :=
  ⟨fun _ => rfl, rfl⟩

/-- Mapping each patch to itself is the identity (structure eta). -/
theorem mapPatchId {V : Type} (ps : List (FormPatch V)) :
    ps.map (fun p => FormPatch.mk p.path p.ptype p.value) = ps := by
  induction ps with
  | nil => rfl
  | cons p t iht => simp only [List.map_cons, iht]

/-- Folding `prefixAll` over a segment list prepends the reversed segments
to every patch path. -/
theorem foldlPrefixAll_spec {V : Type} (segs : List Segment) :
    ∀ ev : PatchEvent V,
      (List.foldl (fun acc seg => PatchEvent.prefixAll acc seg) ev segs).patches
        = ev.patches.map
            (fun p => FormPatch.mk (segs.reverse ++ p.path) p.ptype p.value) := by
  induction segs with
  | nil =>
    intro ev
    rw [List.foldl_nil]
    simp only [List.reverse_nil, List.nil_append]
    rw [mapPatchId]
  | cons s rest ih =>
    intro ev
    rw [List.foldl_cons, ih (PatchEvent.prefixAll ev s)]
    simp [PatchEvent.prefixAll, List.map_map, Function.comp, List.reverse_cons,
      List.append_assoc]

/-- Claim C7: the change proxy prefixes each nested form-builder patch with
the object path segments taken in reverse order, so every forwarded patch
path is the full object path (in original order) followed by the patch's
local path; in particular a local `set` patch with empty path opened at
`[blockKey, children, childKey]` is forwarded at exactly that path. -/
theorem change_proxy_prefixes {V : Type} (ev : PatchEvent V) (objPath : List Segment) :
    (handleFormBuilderEditObjectChange ev objPath).patches
        = ev.patches.map (fun p => FormPatch.mk (objPath ++ p.path) p.ptype p.value)
      ∧ ∀ (x : V) (bk ck : String),
        (handleFormBuilderEditObjectChange (PatchEvent.mk [FormPatch.mk [] "set" x])
            [Segment.key bk, Segment.prop "children", Segment.key ck]).patches
          = [FormPatch.mk [Segment.key bk, Segment.prop "children", Segment.key ck]
              "set" x] := by
  constructor
  · have h := foldlPrefixAll_spec (V := V) objPath.reverse ev
    simpa [handleFormBuilderEditObjectChange] using h
  · intro x bk ck
    rfl

/-- Claim C1: for a focus path whose second segment is the literal
`markDefs` and whose first and third segments are keyed, if the editor's
current value yields a block for the first segment's key and that block
yields a span child whose marks include the third segment's key, the
Orchestrator activates, selects the collapsed selection at the span's path
`[blockKey, children, spanKey]` in the engine, and synchronously sets
`objectEditData` with kind annotation, `editorPath` the span path and
`formBuilderPath` the first three segments of the focus path. -/
theorem annotation_focus_opens (v : List Block) (fp : List Segment)
    (bk mdk : String) (block : Block) (span : Child)
    (h0 : fp[0]? = some (Segment.key bk))
    (h1 : fp[1]? = some (Segment.prop "markDefs"))
    (h2 : fp[2]? = some (Segment.key mdk))
    (hb : List.find? (blockHasKey bk) v = some block)
    (hs : List.find? (spanHasMark mdk) block.children = some span) :
    focusPathEffect none v fp
      = FocusEffect.mk true
          (some (collapsedAt
            [Segment.key bk, Segment.prop "children", Segment.key span._key]))
          (some (ObjectEditData.mk
            [Segment.key bk, Segment.prop "children", Segment.key span._key]
            (fp.take 3) ObjKind.annot))
          none := by
  have hm : isMarkdefPath fp = true := by
    simp [isMarkdefPath, h1]
  simp [focusPathEffect, hm, h0, annotationBranch, hb, h2, hs]

/-- Witness for C1 at a concrete document and focus path. -/
theorem annotation_focus_opens_witness :
    (([Segment.key "b", Segment.prop "markDefs", Segment.key "m1"]
        : List Segment)[0]? = some (Segment.key "b"))
      ∧ (([Segment.key "b", Segment.prop "markDefs", Segment.key "m1"]
        : List Segment)[1]? = some (Segment.prop "markDefs"))
      ∧ (([Segment.key "b", Segment.prop "markDefs", Segment.key "m1"]
        : List Segment)[2]? = some (Segment.key "m1"))
      ∧ List.find? (blockHasKey "b")
          [Block.mk "b" "block" (some "normal") [MarkDef.mk "m1" "link"]
            [Child.mk "s1" "span" (some "hi") (some ["m1"])]]
        = some (Block.mk "b" "block" (some "normal") [MarkDef.mk "m1" "link"]
            [Child.mk "s1" "span" (some "hi") (some ["m1"])])
      ∧ List.find? (spanHasMark "m1")
          [Child.mk "s1" "span" (some "hi") (some ["m1"])]
        = some (Child.mk "s1" "span" (some "hi") (some ["m1"]))
      ∧ focusPathEffect none
          [Block.mk "b" "block" (some "normal") [MarkDef.mk "m1" "link"]
            [Child.mk "s1" "span" (some "hi") (some ["m1"])]]
          [Segment.key "b", Segment.prop "markDefs", Segment.key "m1"]
        = FocusEffect.mk true
            (some (collapsedAt
              [Segment.key "b", Segment.prop "children", Segment.key "s1"]))
            (some (ObjectEditData.mk
              [Segment.key "b", Segment.prop "children", Segment.key "s1"]
              [Segment.key "b", Segment.prop "markDefs", Segment.key "m1"]
              ObjKind.annot))
            none :=
  ⟨rfl, rfl, rfl, by decide, by decide,
    annotation_focus_opens
      [Block.mk "b" "block" (some "normal") [MarkDef.mk "m1" "link"]
        [Child.mk "s1" "span" (some "hi") (some ["m1"])]]
      [Segment.key "b", Segment.prop "markDefs", Segment.key "m1"]
      "b" "m1"
      (Block.mk "b" "block" (some "normal") [MarkDef.mk "m1" "link"]
        [Child.mk "s1" "span" (some "hi") (some ["m1"])])
      (Child.mk "s1" "span" (some "hi") (some ["m1"]))
      rfl rfl rfl (by decide) (by decide)⟩

/-- Counterexample to claim C2: a focus path `[blockKey]` consisting of a
single keyed segment does not satisfy the source's `focusPath.length > 1`
guard, so even for a block whose `_type` is not `block` no engine selection
is issued and no `objectEditData` is scheduled: the claimed block-object
opening does not happen. -/
theorem blockObject_single_segment_no_open :
    (focusPathEffect none [Block.mk "b1" "myObject" none [] []]
        [Segment.key "b1"]).selectCmd = none
      ∧ (focusPathEffect none [Block.mk "b1" "myObject" none [] []]
        [Segment.key "b1"]).deferredEdit = none := by
  exact ⟨rfl, rfl⟩

/-- Claim C2 as amended: a focus path of length greater than 1 whose first
segment is keyed and whose second segment is neither the literal `children`
nor the literal `markDefs`, received while no object edit session is open
and addressing a block whose `_type` is not `block`, makes the Orchestrator
select the collapsed selection at `[blockKey]` immediately and schedule
`objectEditData` with kind blockObject and `editorPath = formBuilderPath =
[blockKey]` for the next tick (no synchronous `objectEditData` update). -/
theorem blockObject_focus_opens (v : List Block) (fp : List Segment)
    (bk : String) (block : Block)
    (h0 : fp[0]? = some (Segment.key bk))
    (hch : ¬ fp[1]? = some (Segment.prop "children"))
    (hmd : ¬ fp[1]? = some (Segment.prop "markDefs"))
    (hlen : 1 < fp.length)
    (_hb : List.find? (blockHasKey bk) v = some block)
    (_ht : ¬ block._type = "block") :
    focusPathEffect none v fp
      = FocusEffect.mk true (some (collapsedAt [Segment.key bk])) none
          (some (ObjectEditData.mk [Segment.key bk] [Segment.key bk]
            ObjKind.blockObject)) := by
  have hm : isMarkdefPath fp = false := by
    simp [isMarkdefPath, hmd]
  have hc : isChildPath fp = false := by
    simp [isChildPath, hch]
  have htake : fp.take 1 = [Segment.key bk] := by
    cases fp with
    | nil => simp at h0
    | cons a t =>
      have ha : a = Segment.key bk := by
        simpa using h0
      rw [ha]
      rfl
  have hcond : ((isChildPath fp && decide (fp.length > 3))
      || (!isChildPath fp && decide (fp.length > 1))) = true := by
    simp [hc, hlen]
  have hpath : blockBranchPath fp = [Segment.key bk] := by
    simp [blockBranchPath, hc, htake]
  have hkind : blockBranchKind fp = ObjKind.blockObject := by
    simp [blockBranchKind, hc]
  have hbb : blockBranch fp
      = FocusEffect.mk true (some (collapsedAt [Segment.key bk])) none
          (some (ObjectEditData.mk [Segment.key bk] [Segment.key bk]
            ObjKind.blockObject)) := by
    unfold blockBranch
    rw [if_pos hcond, hpath, hkind]
  simp [focusPathEffect, hm, hbb]

/-- Witness for the amended C2 at a concrete document and focus path. -/
theorem blockObject_focus_opens_witness :
    (([Segment.key "b1", Segment.prop "title"] : List Segment)[0]?
        = some (Segment.key "b1"))
      ∧ ¬ (([Segment.key "b1", Segment.prop "title"] : List Segment)[1]?
        = some (Segment.prop "children"))
      ∧ ¬ (([Segment.key "b1", Segment.prop "title"] : List Segment)[1]?
        = some (Segment.prop "markDefs"))
      ∧ 1 < ([Segment.key "b1", Segment.prop "title"] : List Segment).length
      ∧ List.find? (blockHasKey "b1") [Block.mk "b1" "myObject" none [] []]
        = some (Block.mk "b1" "myObject" none [] [])
      ∧ ¬ (Block.mk "b1" "myObject" none [] [])._type = "block"
      ∧ focusPathEffect none [Block.mk "b1" "myObject" none [] []]
          [Segment.key "b1", Segment.prop "title"]
        = FocusEffect.mk true (some (collapsedAt [Segment.key "b1"])) none
            (some (ObjectEditData.mk [Segment.key "b1"] [Segment.key "b1"]
              ObjKind.blockObject)) :=
  ⟨rfl, by decide, by decide, by decide, by decide, by decide,
    blockObject_focus_opens [Block.mk "b1" "myObject" none [] []]
      [Segment.key "b1", Segment.prop "title"] "b1"
      (Block.mk "b1" "myObject" none [] [])
      rfl (by decide) (by decide) (by decide) (by decide) (by decide)⟩

/-- Claim C6: for every open object edit session, running the close action
appends exactly one external focus event, whose path is the session's
`editorPath`, leaves `objectEditData` null, re-selects the collapsed
selection at `editorPath` in the engine, and records that selection as the
initial selection for the next render. -/
theorem close_clears_and_refocuses (st : OrchState) (oed : ObjectEditData) :
    (runClose st oed).focusLog = st.focusLog ++ [oed.editorPath]
      ∧ (runClose st oed).objectEditData = none
      ∧ (runClose st oed).engineSelection = some (collapsedAt oed.editorPath)
      ∧ (runClose st oed).initialSelection = some (collapsedAt oed.editorPath) :=
  ⟨rfl, rfl, rfl, rfl⟩

/-- Claim C10: the Orchestrator emits no external focus-path event in
response to an internal selection change while the selection is
non-collapsed, while an object edit session is open, while the current
focus path addresses a `markDefs` entry, or when the selection's focus path
already equals the current focus path. -/
theorem selection_sync_no_emit (sel : EditorSel) (oed : Option ObjectEditData)
    (fp : List Segment)
    (h : ¬ sel.focus.path = sel.anchor.path ∨ ¬ sel.focus.offset = sel.anchor.offset
      ∨ ¬ oed = none ∨ fp[1]? = some (Segment.prop "markDefs")
      ∨ fp = sel.focus.path) :
    selectionSyncEmit (some sel) oed fp = none := by
  simp only [selectionSyncEmit]
  by_cases h1 : oed = none ∧ ¬(fp[1]? = some (Segment.prop "markDefs"))
  · rw [if_pos h1]
    by_cases h2 : (sel.focus.path = sel.anchor.path
        ∧ sel.focus.offset = sel.anchor.offset) ∧ ¬(fp = sel.focus.path)
    · exfalso
      rcases h with h | h | h | h | h
      · exact h h2.1.1
      · exact h h2.1.2
      · exact h h1.1
      · exact h1.2 h
      · exact h2.2 h
    · rw [if_neg h2]
  · rw [if_neg h1]

/-- Witness for C10: an open object edit session blocks the emission. -/
theorem selection_sync_no_emit_witness :
    (¬ (some (ObjectEditData.mk [] [] ObjKind.blockObject)
        : Option ObjectEditData) = none)
      ∧ selectionSyncEmit (some (collapsedAt [Segment.key "a"]))
          (some (ObjectEditData.mk [] [] ObjKind.blockObject)) [] = none :=
  ⟨by decide,
    selection_sync_no_emit (collapsedAt [Segment.key "a"])
      (some (ObjectEditData.mk [] [] ObjKind.blockObject)) []
      (Or.inr (Or.inr (Or.inl (by decide))))⟩

end Sanity
